import Mathlib

/-!
# A shallow embedding of `limiter.py`

`limiter.py` implements a cross-process call-rate limiter: a bsddb btree file
maps fixed-width timestamp keys (`"%10.6f" % time.time()`) to payload strings,
an advisory `flock` on a sibling `.lck` file guards the check-then-record
sequence, and the facade `limit(dbpath, entry, max, nseconds, log)` admits a
call iff fewer than `max` admitted calls fall in the trailing `nseconds`
window.

Modelling choices:
* Wall-clock instants are rationals (CPython's `time.time()` float is a
  fraction; none of the verified properties depend on binary rounding).
  Each `time.time()` sample in the source is an explicit parameter, in
  source order: `tLock` (taken in `Limiter.lock`), `tNow` (in
  `maxpernseconds`), `tIns` and `tKey` (the two samples in `Limiter.insert`).
* The btree file is `Option Store`: `none` is an absent file, `Store` a list
  of key/payload pairs kept sorted by key descending, i.e. newest first, the
  order in which `last()` walks the cursor (`log.last()` then repeated
  `log.previous()`). Keys are the rational values denoted by the formatted
  decimal strings; `float(key)` re-parsing is the identity under this reading.
* Exceptions are explicit: `Option` where only one exception matters,
  `Except String` carrying the Python exception class name otherwise.
* File-system faults that the claims mention are injected as booleans:
  `logOpenFails` (the `open(log, "a")` in `Limiter.__init__` raises) and
  `logWriteFails` (a `logfile.write` raises, swallowed by the bare
  `except: pass` in `Limiter.log`).
-/

namespace PyLimiter

/-- Btree content: key/payload pairs, sorted by key strictly descending
(newest first). -/
abbrev Store := List (ℚ × String)

/-- The rational value denoted by the key string `"%10.6f" % t`: `t` rounded
to 6 decimal places (`printf` rounds to nearest; the half-microsecond tie
rule is immaterial to every property proved here). -/
def fmtKey (t : ℚ) : ℚ := ((Rat.floor (t * 1000000 + 1/2) : ℤ) : ℚ) / 1000000

/-- `log[key] = entry` on the btree: replace the payload at an existing key,
otherwise insert the pair keeping keys sorted descending. -/
def storeInsert : Store → ℚ → String → Store
  | [], k, v => [(k, v)]
  | (k1, v1) :: rest, k, v =>
    if k1 < k then (k, v) :: (k1, v1) :: rest
    else if k = k1 then (k, v) :: rest
    else (k1, v1) :: storeInsert rest k v

/-- `log[key]` read-back on the btree content. -/
def storeLookup : Store → ℚ → Option String
  | [], _ => none
  | (k1, v1) :: rest, k => if k = k1 then some v1 else storeLookup rest k

/-- How many entries of the content carry the key `k`. -/
def countKey (s : Store) (k : ℚ) : ℕ :=
  (s.filter fun e => decide (e.1 = k)).length

/-- Number of entries in the store; an absent file holds none. -/
def dbSize (db : Option Store) : ℕ := (db.getD []).length

/-- Zero-pad a digit string on the left to width `w` (the `%06d`-style
fraction field of `"%10.6f"`). -/
def padZeros (s : String) (w : ℕ) : String :=
  String.mk (List.replicate (w - s.length) '0') ++ s

/-- Space-pad a rendered number on the left to the minimum field width `w`
of a `%`-format. -/
def padLeft (s : String) (w : ℕ) : String :=
  String.mk (List.replicate (w - s.length) ' ') ++ s

/-- The string `"%10.6f" % t`: sign, integer part, 6 fractional digits,
space-padded to a minimum width of 10. -/
def fmtTs (t : ℚ) : String :=
  let n : ℤ := Rat.floor (t * 1000000 + 1/2)
  let sign := if n < 0 then "-" else ""
  let ip := n.natAbs / 1000000
  let fp := n.natAbs % 1000000
  padLeft (sign ++ toString ip ++ "." ++ padZeros (toString fp) 6) 10

namespace Limiter

/-- `Limiter.insert(self, entry)`: `bsddb.btopen(self.db)` opens the btree in
create-if-absent mode, then `log["%10.6f" % time.time()] = entry` writes the
entry under the formatted-timestamp key (an assignment: an existing equal key
is overwritten), then syncs and closes. `tkey` is that `time.time()` sample
(`self.tstamp` is set from a separate, earlier sample, threaded by the
caller). -/
def insert (db : Option Store) (tkey : ℚ) (entry : String) : Option Store :=
  some (storeInsert (db.getD []) (fmtKey tkey) entry)

/-- `Limiter.last(self, count)`: newest-to-oldest prefix of the store.
`count == 0` returns `[]` before touching the file; a missing file
(`bsddb.db.DBNoSuchFileError` from the read-only `btopen`) returns `[]`;
`log.last()` on an empty btree raises `bsddb.error`, caught, returning `[]`.
Otherwise one entry is appended by `log.last()` and the `while i < count`
loop appends up to `count - 1` more via `log.previous()`, stopping early
(partial result, no error) when the btree is exhausted: altogether the
newest `max 1 count` entries, fewer if the store is smaller. -/
def last (db : Option Store) (count : ℤ) : Store :=
  if count = 0 then []
  else
    match db with
    | none => []
    | some s => s.take (max 1 count).toNat

/-- `Limiter.maxpernseconds(self, max, nseconds)` (the parameter `max` is
`mx` here, leaving `Max.max` usable). `recent = self.last(max)`; fewer than
`max` entries returns `False`; otherwise `recent[-1]` — `none` models the
uncaught `IndexError` this raises on an empty `recent`, which happens exactly
when `max <= 0` with the length test passed — gives the oldest fetched entry,
whose key `float(recent[-1][0])` re-parses to; `now - key > nseconds` returns
`False`, else `True`. -/
def maxpernseconds (db : Option Store) (mx : ℤ) (nseconds now : ℚ) : Option Bool :=
  let recent := last db mx
  if (recent.length : ℤ) < mx then some false
  else
    match recent.getLast? with
    | none => none
    | some e => if now - e.1 > nseconds then some false else some true

/-- `Limiter.log(self, entry, timestamp=None)`, transcribed at the
indentation the interpreter sees (tabs expand to multiples of 8): the writes
of `entry`, the newline and the `flush()` sit in the `else:` suite of
`if not timestamp:`, so they run only when a truthy `timestamp` argument is
passed. With the default `timestamp=None` (the only way the module ever calls
it) the single executed write is the `"%10.6f: " % self.tstamp` prefix.
Returns the list of strings written to the logfile: empty when there is no
open logfile (`self.logfile` is `None`, the `.write` raises `AttributeError`)
or when a write raises — either way the bare `except: pass` swallows it. -/
def log (haveLogfile writeFails : Bool) (tstamp : ℚ) (timestamp : Option ℚ)
    (entry : String) : List String :=
  if !haveLogfile then []
  else if writeFails then []
  else
    match timestamp with
    | none => [fmtTs tstamp ++ ": "]
    | some t =>
      if t = 0 then [fmtTs tstamp ++ ": "]
      else [fmtTs t ++ ": ", entry, "\n"]

end Limiter

deriving instance DecidableEq for Except

/-- Everything observable about one `limit(...)` call. -/
structure LimitOut where
  /-- `.ok b` is the returned boolean; `.error e` means the Python exception
  class `e` propagates out of `limit`. -/
  result : Except String Bool
  /-- The store file after the call. -/
  db : Option Store
  /-- Whether `flock(..., LOCK_EX)` was ever acquired during the call. -/
  lockedEver : Bool
  /-- Whether the exclusive lock is still held when control leaves `limit`. -/
  lockHeld : Bool
  /-- The strings written to the audit logfile, in order. -/
  audit : List String
deriving DecidableEq

/-- `limit(dbpath, entry, max, nseconds, log)`: construct a `Limiter`
(opening the audit logfile for append when `log` is truthy — `hasLog`; a
raise there, `logOpenFails`, propagates before anything else happens), then
`l.lock()` (sets `tstamp := tLock`, acquires the flock), then
`l.maxpernseconds(max, nseconds)` — there is no `try/finally`, so an
exception here (or in `l.insert`) propagates without reaching `l.unlock()` —
then on a `False` verdict `l.insert(entry)` (sets `tstamp := tIns`, keys the
entry by `fmtKey tKey`) and the return value becomes `True`; `l.unlock()`;
finally, when `log` is truthy, one `l.log("OK - "/"Error - " + entry)` call
with the default timestamp. -/
def limit (db0 : Option Store) (entry : String) (mx : ℤ) (nseconds : ℚ)
    (hasLog logOpenFails logWriteFails : Bool) (tLock tNow tIns tKey : ℚ) :
    LimitOut :=
  if hasLog && logOpenFails then
    { result := .error "IOError", db := db0,
      lockedEver := false, lockHeld := false, audit := [] }
  else
    match Limiter.maxpernseconds db0 mx nseconds tNow with
    | none =>
      { result := .error "IndexError", db := db0,
        lockedEver := true, lockHeld := true, audit := [] }
    | some true =>
      { result := .ok false, db := db0,
        lockedEver := true, lockHeld := false,
        audit := Limiter.log hasLog logWriteFails tLock none ("Error - " ++ entry) }
    | some false =>
      { result := .ok true, db := Limiter.insert db0 tKey entry,
        lockedEver := true, lockHeld := false,
        audit := Limiter.log hasLog logWriteFails tIns none ("OK - " ++ entry) }

/-- A sequence of `limit` calls against one store (audit faults off), each
handing its store state to the next; returns the call results in order and
the final store. Each list element carries one call's four time samples. -/
def runCalls (entry : String) (mx : ℤ) (nseconds : ℚ) (hasLog : Bool) :
    Option Store → List (ℚ × ℚ × ℚ × ℚ) → List (Except String Bool) × Option Store
  | db, [] => ([], db)
  | db, (tLock, tNow, tIns, tKey) :: rest =>
    let out := limit db entry mx nseconds hasLog false false tLock tNow tIns tKey
    let next := runCalls entry mx nseconds hasLog out.db rest
    (out.result :: next.1, next.2)

/-- Python `int(a)` on an option value: optional sign, then decimal digits
(whitespace tolerance and other exotic acceptances of `int()` are not
exercised by any property here). -/
def digitVal (c : Char) : Option ℕ :=
  if c.isDigit then some (c.toNat - 48) else none

/-- Accumulate decimal digits left to right; `none` on a non-digit. -/
def decDigitsAux : List Char → ℕ → Option ℕ
  | [], acc => some acc
  | c :: rest, acc =>
    match digitVal c with
    | none => none
    | some d => decDigitsAux rest (acc * 10 + d)

/-- `int(s)` : `none` models the `ValueError` raise. -/
def pyInt (s : String) : Option ℤ :=
  match s.data with
  | [] => none
  | '-' :: rest =>
    if rest.isEmpty then none
    else (decDigitsAux rest 0).map fun n => -(n : ℤ)
  | '+' :: rest =>
    if rest.isEmpty then none
    else (decDigitsAux rest 0).map fun n => (n : ℤ)
  | l => (decDigitsAux l 0).map fun n => (n : ℤ)

/-- The variables `main` threads while walking `opts` (`mx` models the
source's `max`). -/
structure Args where
  dbpath : Option String
  mx : ℤ
  nseconds : ℤ
  logfile : Option String
  quiet : Bool
deriving DecidableEq

/-- `dbpath, entry, max, nseconds, log, quiet = (None, "", 3, 900, None,
False)`. -/
def initialArgs : Args :=
  { dbpath := none, mx := 3, nseconds := 900, logfile := none, quiet := false }

/-- Outcome of the `for o, a in opts` loop in `main`. -/
inductive OptsResult
  /-- `-h`/`--help` printed the docstring and called `sys.exit(0)`. -/
  | helpExit : OptsResult
  /-- `int(a)` raised `ValueError` (uncaught: `main` catches only
  `Usage` and `TypeError`). -/
  | valueError : OptsResult
  /-- The loop finished with these settings. -/
  | parsed (a : Args) : OptsResult
deriving DecidableEq

/-- The `for o, a in opts` loop: `-h` exits immediately; the other flags set
their variable (the source uses independent `if`s, but `getopt` yields one
flag per pair, so at most one matches). -/
def procOpts : Args → List (String × String) → OptsResult
  | a, [] => .parsed a
  | a, (o, v) :: rest =>
    if o = "-h" ∨ o = "--help" then .helpExit
    else
      let a1 := if o = "-f" ∨ o = "--file" then { a with dbpath := some v } else a
      if o = "-m" ∨ o = "--max" then
        match pyInt v with
        | none => .valueError
        | some n => procOpts { a1 with mx := n } rest
      else if o = "-t" ∨ o = "--nseconds" then
        match pyInt v with
        | none => .valueError
        | some n => procOpts { a1 with nseconds := n } rest
      else
        let a2 := if o = "-l" ∨ o = "--logfile" then { a1 with logfile := some v } else a1
        let a3 := if o = "-q" ∨ o = "--quiet" then { a2 with quiet := true } else a2
        procOpts a3 rest

/-- How the `main` invocation ends. -/
inductive MainOutcome
  /-- The process exit code (via `return` from `main` fed to `sys.exit`, or
  a `sys.exit(0)` inside). -/
  | exitCode (c : ℕ) : MainOutcome
  /-- An exception neither `except` clause catches propagates; the named
  Python exception class escapes `main`. -/
  | uncaught (exc : String) : MainOutcome
deriving DecidableEq

/-- Python truthiness of an optional path string: `None` and `""` are falsy.
This is the `if log:` test in `limit` and `Limiter.__init__`. -/
def strTruthy (s : Option String) : Bool := !(s.getD "").isEmpty

/-- `main(argv)`, given the outcome `parsed` of `getopt.getopt` (`.error` is
a `getopt.error`, re-raised as `Usage` and answered with `return 2`). On a
successful parse the option loop runs; then `entry = "".join(args)`; then
`limit(dbpath, ...)` — with `dbpath` still `None`, `Limiter.__init__`
evaluates `None + ".db"` and the `TypeError` is caught by `main`'s
`except TypeError`, which prints the docstring and calls `sys.exit(0)`.
A normal verdict maps to exit code 0 (`True`, "OK") or 1 (`False`,
"Error"); any other exception out of `limit` escapes `main`. -/
def main (parsed : Except String (List (String × String) × List String))
    (db0 : Option Store) (logOpenFails logWriteFails : Bool)
    (tLock tNow tIns tKey : ℚ) : MainOutcome × Option Store :=
  match parsed with
  | .error _ => (.exitCode 2, db0)
  | .ok (opts, args) =>
    match procOpts initialArgs opts with
    | .helpExit => (.exitCode 0, db0)
    | .valueError => (.uncaught "ValueError", db0)
    | .parsed a =>
      match a.dbpath with
      | none => (.exitCode 0, db0)
      | some _ =>
        let out := limit db0 (String.join args) a.mx (a.nseconds : ℚ)
          (strTruthy a.logfile) logOpenFails logWriteFails tLock tNow tIns tKey
        match out.result with
        | .error e => (.uncaught e, out.db)
        | .ok true => (.exitCode 0, out.db)
        | .ok false => (.exitCode 1, out.db)

end PyLimiter

/-! ## Helper lemmas about the store and the cursor walk -/

namespace PyLimiter

theorem countKey_cons (e : ℚ × String) (s : Store) (k : ℚ) :
    countKey (e :: s) k = (if e.1 = k then 1 else 0) + countKey s k := by
  simp only [countKey, List.filter_cons]
  by_cases h : e.1 = k
  · simp [h, Nat.add_comm]
  · simp [h]

theorem countKey_eq_zero (s : Store) (k : ℚ) (h : ∀ e ∈ s, e.1 ≠ k) :
    countKey s k = 0 := by
  induction s with
  | nil => rfl
  | cons hd tl ih =>
    rw [countKey_cons, if_neg (h hd (List.mem_cons_self hd tl)), Nat.zero_add]
    exact ih fun e he => h e (List.mem_cons_of_mem hd he)

theorem storeInsert_idem (s : Store) (k : ℚ) (v1 v2 : String) :
    storeInsert (storeInsert s k v1) k v2 = storeInsert s k v2 := by
  induction s with
  | nil => simp [storeInsert]
  | cons hd tl ih =>
    obtain ⟨k1, v0⟩ := hd
    by_cases h1 : k1 < k
    · simp [storeInsert, h1, lt_irrefl]
    · by_cases h2 : k = k1
      · subst h2
        simp [storeInsert, h1, lt_irrefl]
      · simp [storeInsert, h1, h2, ih]

theorem storeInsert_length_congr (s : Store) (k : ℚ) (v1 v2 : String) :
    (storeInsert s k v1).length = (storeInsert s k v2).length := by
  induction s with
  | nil => rfl
  | cons hd tl ih =>
    obtain ⟨k1, v0⟩ := hd
    by_cases h1 : k1 < k
    · simp [storeInsert, h1]
    · by_cases h2 : k = k1
      · simp [storeInsert, h1, h2]
      · simp [storeInsert, h1, h2, ih]

theorem storeLookup_storeInsert (s : Store) (k : ℚ) (v : String) :
    storeLookup (storeInsert s k v) k = some v := by
  induction s with
  | nil => simp [storeInsert, storeLookup]
  | cons hd tl ih =>
    obtain ⟨k1, v0⟩ := hd
    by_cases h1 : k1 < k
    · simp [storeInsert, storeLookup, h1]
    · by_cases h2 : k = k1
      · simp [storeInsert, storeLookup, h1, h2]
      · simp [storeInsert, storeLookup, h1, h2, ih]

theorem countKey_storeInsert (s : Store) (k : ℚ) (v : String)
    (hs : s.Pairwise fun a b => b.1 < a.1) :
    countKey (storeInsert s k v) k = 1 := by
  induction s with
  | nil => simp [storeInsert, countKey]
  | cons hd tl ih =>
    obtain ⟨k1, v0⟩ := hd
    rw [List.pairwise_cons] at hs
    obtain ⟨hall, htl⟩ := hs
    by_cases h1 : k1 < k
    · have hz : countKey ((k1, v0) :: tl) k = 0 := by
        apply countKey_eq_zero
        intro e he
        rcases List.mem_cons.mp he with rfl | hmem
        · exact ne_of_lt h1
        · exact ne_of_lt (lt_trans (hall e hmem) h1)
      simp [storeInsert, h1, countKey_cons, hz]
    · by_cases h2 : k = k1
      · have hz : countKey tl k1 = 0 :=
          countKey_eq_zero tl k1 fun e he => ne_of_lt (hall e he)
        simp [storeInsert, h1, h2, countKey_cons, hz]
      · have hne : k1 ≠ k := fun hh => h2 hh.symm
        simp [storeInsert, h1, h2, countKey_cons, hne, ih htl]

theorem storeInsert_length_le (s : Store) (k : ℚ) (v : String) :
    (storeInsert s k v).length ≤ s.length + 1 := by
  induction s with
  | nil => simp [storeInsert]
  | cons hd tl ih =>
    obtain ⟨k1, v0⟩ := hd
    by_cases h1 : k1 < k
    · simp [storeInsert, h1]
    · by_cases h2 : k = k1
      · simp [storeInsert, h1, h2]
      · simp only [storeInsert, if_neg h1, if_neg h2, List.length_cons]
        exact Nat.succ_le_succ ih

theorem last_length_le (db : Option Store) (c : ℤ) :
    (Limiter.last db c).length ≤ (max 1 c).toNat := by
  unfold Limiter.last
  split
  · simp
  · cases db with
    | none => simp
    | some s => simp [List.length_take_le]

theorem last_length_le_size (db : Option Store) (c : ℤ) :
    (Limiter.last db c).length ≤ dbSize db := by
  unfold Limiter.last
  split
  · simp [dbSize]
  · cases db with
    | none => simp [dbSize]
    | some s =>
      simp only [dbSize, Option.getD_some]
      simp [List.length_take]

end PyLimiter

/-! ## The claims -/

namespace PyLimiter

/-- C5: for every count `k`, querying the most recent entries (`last(k)`)
when the store file does not exist returns an empty sequence — the
`DBNoSuchFileError` from the read-only `btopen` is caught inside `last`, so
no error escapes (the embedding of `last` is a total function precisely
because every exception the body can raise is handled in the source). -/
theorem claim5_missing_store_empty (k : ℤ) : Limiter.last none k = [] := by
  unfold Limiter.last
  split
  · rfl
  · rfl

/-- C3 counterexample: with `max == 0` the window evaluator does not return
`true` — it raises an uncaught `IndexError` (modelled as `none`), on an
absent store and on a populated one alike: `last(0)` returns `[]`, the guard
`len(recent) < 0` is false, and `recent[-1]` indexes the empty list. -/
theorem claim3_max_zero_counterexample :
    Limiter.maxpernseconds none 0 900 100 = none ∧
    Limiter.maxpernseconds (some [((50 : ℚ), "x")]) 0 900 100 = none ∧
    Limiter.maxpernseconds none 0 900 100 ≠ some true := by
  exact ⟨rfl, rfl, by decide⟩

/-- C3 amended: for every store state, calling the window evaluator with
`max == 0` raises an uncaught `IndexError` (the empty `recent` list is
indexed at `[-1]`): it returns no boolean at all. In particular it never
treats zero as "no limit" (it cannot return `false`), but neither does it
return `true`. -/
theorem claim3_max_zero_amended (db : Option Store) (nseconds now : ℚ) :
    Limiter.maxpernseconds db 0 nseconds now = none := by
  simp [Limiter.maxpernseconds, Limiter.last]

/-- C2 counterexample: a `limit` call on which the window evaluation raises
(store absent, `max = 0`, so `maxpernseconds` raises `IndexError`)
propagates the exception with the flock still held: there is no
`try/finally`, so `l.unlock()` is never reached on this exit path. -/
theorem claim2_lock_release_counterexample :
    (limit none "" 0 900 false false false 0 0 0 0).result
        = Except.error "IndexError" ∧
    (limit none "" 0 900 false false false 0 0 0 0).lockedEver = true ∧
    (limit none "" 0 900 false false false 0 0 0 0).lockHeld = true := by
  exact ⟨rfl, rfl, rfl⟩

/-- C2 amended: the lock is released before `limit` returns on every
normally-returning path (once acquired, every path that produces a boolean
verdict passes through `l.unlock()`); but when the window evaluation (or the
insert) raises, the exception propagates with the lock still held — the
source has no `try/finally` around the critical section. -/
theorem claim2_lock_release_amended (db0 : Option Store) (entry : String)
    (mx : ℤ) (nseconds : ℚ) (hasLog lof lwf : Bool) (tLock tNow tIns tKey : ℚ)
    (b : Bool)
    (h : (limit db0 entry mx nseconds hasLog lof lwf tLock tNow tIns tKey).result
        = Except.ok b) :
    (limit db0 entry mx nseconds hasLog lof lwf tLock tNow tIns tKey).lockHeld
        = false ∧
    (limit db0 entry mx nseconds hasLog lof lwf tLock tNow tIns tKey).lockedEver
        = true := by
  unfold limit at h ⊢
  by_cases hlog : (hasLog && lof) = true
  · rw [if_pos hlog] at h
    exact absurd h (by simp)
  · rw [if_neg hlog] at h ⊢
    rcases hm : Limiter.maxpernseconds db0 mx nseconds tNow with _ | bb
    · rw [hm] at h
      exact Except.noConfusion h
    · cases bb
      · exact ⟨rfl, rfl⟩
      · exact ⟨rfl, rfl⟩

/-- C2 amended, witnessed at a concrete admitted call: fresh store,
`max = 3`, the call returns `ok true` and the lock is back down. -/
theorem claim2_lock_release_amended_witness :
    (limit none "" 3 900 false false false 0 0 0 0).lockHeld = false ∧
    (limit none "" 3 900 false false false 0 0 0 0).lockedEver = true :=
  claim2_lock_release_amended none "" 3 900 false false false 0 0 0 0 true rfl

/-- C10: supplying an audit-log path whose `open(log, "a")` raises makes the
`Limiter` constructor propagate immediately: the flock is never acquired, the
store is untouched, no audit bytes are written, and no admission verdict is
produced. By contrast a failure in a `logfile.write` (swallowed by the bare
`except: pass` in `Limiter.log`) never changes the returned verdict: the
best-effort swallowing applies to writes of a log line only, not to opening
the file. -/
theorem claim10_log_open_raises_first (db0 : Option Store) (entry : String)
    (mx : ℤ) (nseconds : ℚ) (lwf : Bool) (tLock tNow tIns tKey : ℚ) :
    (limit db0 entry mx nseconds true true lwf tLock tNow tIns tKey).result
        = Except.error "IOError" ∧
    (limit db0 entry mx nseconds true true lwf tLock tNow tIns tKey).lockedEver
        = false ∧
    (limit db0 entry mx nseconds true true lwf tLock tNow tIns tKey).db = db0 ∧
    (limit db0 entry mx nseconds true true lwf tLock tNow tIns tKey).audit = [] ∧
    (limit db0 entry mx nseconds true false true tLock tNow tIns tKey).result
        = (limit db0 entry mx nseconds true false false tLock tNow tIns tKey).result := by
  refine ⟨rfl, rfl, rfl, rfl, ?_⟩
  rcases hm : Limiter.maxpernseconds db0 mx nseconds tNow with _ | bb
  · simp [limit, hm]
  · cases bb
    · simp [limit, hm]
    · simp [limit, hm]

end PyLimiter

namespace PyLimiter

/-- C1: the window evaluator with arguments `max` (`mx`) and `nseconds`:
when the store yields fewer than `max` recent entries it returns `false`;
otherwise — whenever the `max`-th most recent entry exists, i.e. position
`max - 1` of the newest-first sequence `recent` is filled, which forces
`recent` to hold exactly `max` entries and `recent[-1]` to be that entry —
with `t` its timestamp key, it returns `false` when `now - t > nseconds` and
`true` when `now - t <= nseconds`. -/
theorem claim1_window_evaluator (db : Option Store) (mx : ℤ) (nseconds now : ℚ) :
    (((Limiter.last db mx).length : ℤ) < mx →
      Limiter.maxpernseconds db mx nseconds now = some false) ∧
    (∀ t e, 1 ≤ mx →
      (Limiter.last db mx).get? (mx - 1).toNat = some (t, e) →
      Limiter.maxpernseconds db mx nseconds now
          = some (decide (now - t ≤ nseconds))) := by
  constructor
  · intro h
    unfold Limiter.maxpernseconds
    rw [if_pos h]
  · intro t e hmx hget
    obtain ⟨hlt, hval⟩ := List.get?_eq_some.mp hget
    have hmax : max (1 : ℤ) mx = mx := max_eq_right hmx
    have hlen_le : (Limiter.last db mx).length ≤ mx.toNat := by
      have hh := last_length_le db mx
      rwa [hmax] at hh
    have hlen : (Limiter.last db mx).length = mx.toNat := by omega
    have hnotlt : ¬ (((Limiter.last db mx).length : ℤ) < mx) := by omega
    have hgl : (Limiter.last db mx).getLast? = some (t, e) := by
      rw [List.getLast?_eq_getElem?]
      have hidx : (Limiter.last db mx).length - 1 = (mx - 1).toNat := by omega
      rw [hidx, ← List.get?_eq_getElem?]
      exact hget
    unfold Limiter.maxpernseconds
    rw [if_neg hnotlt, hgl]
    show (if now - t > nseconds then some false else some true)
        = some (decide (now - t ≤ nseconds))
    by_cases hc : now - t > nseconds
    · rw [if_pos hc, decide_eq_false (not_le.mpr hc)]
    · rw [if_neg hc, decide_eq_true (not_lt.mp hc)]

/-- C1, witnessed: one entry at `t = 10`, `max = 1`, `now = 100`,
`nseconds = 900`: the single entry is the 1st most recent, `100 - 10 ≤ 900`,
so the evaluator answers `true` (over limit). -/
theorem claim1_window_evaluator_witness :
    Limiter.maxpernseconds (some [((10 : ℚ), "a")]) 1 900 100 = some true := by
  have h := (claim1_window_evaluator (some [((10 : ℚ), "a")]) 1 900 100).2 10 "a"
    (by decide) (by decide)
  rw [h, decide_eq_true (show (100 : ℚ) - 10 ≤ 900 by norm_num)]

/-- C6: a Denied facade call inserts nothing — the store handed on is the
store handed in — and a retry against that store with the same evaluation
instant `tNow` (no elapsed time) and the same parameters is Denied again,
whatever its other time samples are. -/
theorem claim6_denied_no_insert (db0 : Option Store) (entry : String) (mx : ℤ)
    (nseconds : ℚ) (hasLog lof lwf : Bool)
    (tLock tNow tIns tKey tLock2 tIns2 tKey2 : ℚ)
    (h : (limit db0 entry mx nseconds hasLog lof lwf tLock tNow tIns tKey).result
        = Except.ok false) :
    (limit db0 entry mx nseconds hasLog lof lwf tLock tNow tIns tKey).db = db0 ∧
    (limit db0 entry mx nseconds hasLog lof lwf tLock2 tNow tIns2 tKey2).result
        = Except.ok false := by
  unfold limit at h ⊢
  by_cases hlog : (hasLog && lof) = true
  · rw [if_pos hlog] at h
    exact Except.noConfusion h
  · rw [if_neg hlog] at h
    rw [if_neg hlog, if_neg hlog]
    rcases hm : Limiter.maxpernseconds db0 mx nseconds tNow with _ | bb
    · rw [hm] at h
      exact Except.noConfusion h
    · rw [hm] at h
      cases bb
      · exact absurd h (by simp)
      · exact ⟨rfl, rfl⟩

/-- C6, witnessed: three entries at 98, 99, 100, `max = 3`,
`nseconds = 900`, `now = 100`: Denied (the 3rd most recent is 2 seconds
old), the store is unchanged, and an immediate retry is Denied. -/
theorem claim6_denied_no_insert_witness :
    (limit (some [((100 : ℚ), "a"), (99, "b"), (98, "c")]) "x" 3 900
        false false false 0 100 0 0).db
      = some [((100 : ℚ), "a"), (99, "b"), (98, "c")] ∧
    (limit (some [((100 : ℚ), "a"), (99, "b"), (98, "c")]) "x" 3 900
        false false false 1 100 2 3).result = Except.ok false := by
  refine claim6_denied_no_insert _ "x" 3 900 false false false 0 100 0 0 1 2 3 ?_
  have hmax3 : (max (1 : ℤ) 3) = 3 := rfl
  have hcmp : ¬ ((100 : ℚ) - 98 > 900) := by norm_num
  have hm : Limiter.maxpernseconds
      (some [((100 : ℚ), "a"), (99, "b"), (98, "c")]) 3 900 100 = some true := by
    simp [Limiter.maxpernseconds, Limiter.last, hmax3, hcmp]
  simp [limit, hm]

end PyLimiter

namespace PyLimiter

/-- A call against a store holding fewer than `mx` entries is admitted: the
length guard in `maxpernseconds` answers `false`, so `limit` inserts and
returns `True`. -/
theorem limit_small_admitted (db : Option Store) (entry : String) (mx : ℤ)
    (nseconds : ℚ) (hasLog : Bool) (tLock tNow tIns tKey : ℚ)
    (h : (dbSize db : ℤ) < mx) :
    (limit db entry mx nseconds hasLog false false tLock tNow tIns tKey).result
        = Except.ok true ∧
    (limit db entry mx nseconds hasLog false false tLock tNow tIns tKey).db
        = Limiter.insert db tKey entry := by
  have hm : Limiter.maxpernseconds db mx nseconds tNow = some false := by
    unfold Limiter.maxpernseconds
    have hlt : ((Limiter.last db mx).length : ℤ) < mx := by
      have hsz := last_length_le_size db mx
      omega
    rw [if_pos hlt]
  constructor
  · simp [limit, hm]
  · simp [limit, hm]

/-- Iterating `limit`: as long as the store still holds fewer entries than
`mx` minus the number of calls to come, every call is admitted. -/
theorem runCalls_small_all_admitted (entry : String) (mx : ℤ) (nseconds : ℚ)
    (hasLog : Bool) :
    ∀ (ts : List (ℚ × ℚ × ℚ × ℚ)) (db : Option Store),
      (dbSize db : ℤ) + ts.length ≤ mx →
      (runCalls entry mx nseconds hasLog db ts).1
          = List.replicate ts.length (Except.ok true) := by
  intro ts
  induction ts with
  | nil => intro db h; rfl
  | cons hd tl ih =>
    intro db h
    obtain ⟨tLock, tNow, tIns, tKey⟩ := hd
    have hlen : (dbSize db : ℤ) < mx := by
      simp only [List.length_cons] at h
      push_cast at h
      omega
    obtain ⟨hres, hdb⟩ :=
      limit_small_admitted db entry mx nseconds hasLog tLock tNow tIns tKey hlen
    simp only [runCalls, List.length_cons, List.replicate_succ]
    rw [hres]
    congr 1
    apply ih
    rw [hdb]
    have hle := storeInsert_length_le (db.getD []) (fmtKey tKey) entry
    simp only [List.length_cons] at h
    simp only [Limiter.insert, dbSize, Option.getD_some]
    simp only [dbSize] at h hle
    push_cast at h ⊢
    omega

/-- C7: from a fresh store (absent file, or present and empty) and a limit
`M >= 1`, each of the first `M` facade calls is admitted — `limit` returns
`True` and runs the insert — whatever the four time samples of each call
are (spacing is irrelevant while the history is shorter than `M`). -/
theorem claim7_first_M_admitted (entry : String) (M : ℤ) (nseconds : ℚ)
    (hasLog : Bool) (db0 : Option Store) (ts : List (ℚ × ℚ × ℚ × ℚ))
    (hfresh : db0 = none ∨ db0 = some []) (_hM : 1 ≤ M)
    (hlen : (ts.length : ℤ) ≤ M) :
    (runCalls entry M nseconds hasLog db0 ts).1
        = List.replicate ts.length (Except.ok true) := by
  apply runCalls_small_all_admitted
  have h0 : dbSize db0 = 0 := by
    rcases hfresh with rfl | rfl
    · rfl
    · rfl
  omega

/-- C7, witnessed: two calls from an absent store with `M = 2`, at times 0
and 5: both admitted. -/
theorem claim7_first_M_admitted_witness :
    (runCalls "e" 2 900 false none [(0, 0, 0, 0), (5, 5, 5, 5)]).1
        = List.replicate 2 (Except.ok true) := by
  exact claim7_first_M_admitted "e" 2 900 false none [(0, 0, 0, 0), (5, 5, 5, 5)]
    (Or.inl rfl) (by decide) (by decide)

/-- C9: two insertions whose wall-clock instants format to the same
fixed-width key (`fmtKey t1 = fmtKey t2`) collide: the later one overwrites
the earlier — the double insertion equals inserting only the later payload;
the store then maps the shared key to the later payload, holds exactly one
entry under it, and the entry count did not grow with the second
insertion. -/
theorem claim9_same_key_overwrites (s : Store) (t1 t2 : ℚ) (e1 e2 : String)
    (hsort : s.Pairwise fun a b => b.1 < a.1) (hkey : fmtKey t1 = fmtKey t2) :
    Limiter.insert (Limiter.insert (some s) t1 e1) t2 e2
        = Limiter.insert (some s) t2 e2 ∧
    storeLookup (storeInsert (storeInsert s (fmtKey t1) e1) (fmtKey t2) e2)
        (fmtKey t2) = some e2 ∧
    countKey (storeInsert (storeInsert s (fmtKey t1) e1) (fmtKey t2) e2)
        (fmtKey t2) = 1 ∧
    (storeInsert (storeInsert s (fmtKey t1) e1) (fmtKey t2) e2).length
        = (storeInsert s (fmtKey t1) e1).length := by
  refine ⟨?_, ?_, ?_, ?_⟩
  · simp only [Limiter.insert, Option.getD_some]
    rw [hkey, storeInsert_idem]
  · rw [hkey, storeInsert_idem]
    exact storeLookup_storeInsert s (fmtKey t2) e2
  · rw [hkey, storeInsert_idem]
    exact countKey_storeInsert s (fmtKey t2) e2 hsort
  · rw [hkey, storeInsert_idem]
    exact storeInsert_length_congr s (fmtKey t2) e2 e1

/-- C9, witnessed: the instants `10^-7` and `2 * 10^-7` seconds are distinct
but both format to the key `0.000000`; inserting "first" then "second" into
an empty store leaves one entry carrying "second". -/
theorem claim9_same_key_overwrites_witness :
    Limiter.insert (Limiter.insert (some ([] : Store)) (1 / 10000000) "first")
        (2 / 10000000) "second"
      = Limiter.insert (some ([] : Store)) (2 / 10000000) "second" ∧
    storeLookup (storeInsert (storeInsert ([] : Store) (fmtKey (1 / 10000000)) "first")
        (fmtKey (2 / 10000000)) "second") (fmtKey (2 / 10000000)) = some "second" ∧
    countKey (storeInsert (storeInsert ([] : Store) (fmtKey (1 / 10000000)) "first")
        (fmtKey (2 / 10000000)) "second") (fmtKey (2 / 10000000)) = 1 ∧
    (storeInsert (storeInsert ([] : Store) (fmtKey (1 / 10000000)) "first")
        (fmtKey (2 / 10000000)) "second").length
      = (storeInsert ([] : Store) (fmtKey (1 / 10000000)) "first").length := by
  exact claim9_same_key_overwrites [] (1 / 10000000) (2 / 10000000) "first" "second"
    List.Pairwise.nil (by norm_num [fmtKey, Rat.floor_def'])

end PyLimiter

namespace PyLimiter

/-- C4, evaluated: a facade call with an audit-log path appends only the
timestamp prefix `"%10.6f: "` — never the `OK - `/`Error - ` marker, the
payload, or the terminating newline, because those writes sit in the
unreached `else` branch of `Limiter.log`. Shown on an admitted call (fresh
store; the prefix carries the insert-time sample `tIns = 2`) and on a denied
call (the prefix carries the lock-time sample `tLock = 5`). -/
theorem claim4_audit_prefix_only :
    (limit none "payload" 3 900 true false false 0 1 2 3).result
        = Except.ok true ∧
    (limit none "payload" 3 900 true false false 0 1 2 3).audit
        = ["  2.000000: "] ∧
    (limit (some [((100 : ℚ), "a"), (99, "b"), (98, "c")]) "payload" 3 900 true
        false false 5 100 6 7).result = Except.ok false ∧
    (limit (some [((100 : ℚ), "a"), (99, "b"), (98, "c")]) "payload" 3 900 true
        false false 5 100 6 7).audit = ["  5.000000: "] := by
  have hmax3 : (max (1 : ℤ) 3) = 3 := rfl
  have hcmp : ¬ ((100 : ℚ) - 98 > 900) := by norm_num
  have hm : Limiter.maxpernseconds
      (some [((100 : ℚ), "a"), (99, "b"), (98, "c")]) 3 900 100 = some true := by
    simp [Limiter.maxpernseconds, Limiter.last, hmax3, hcmp]
  have hf2 : Rat.floor ((2 : ℚ) * 1000000 + 1 / 2) = 2000000 := by
    norm_num [Rat.floor_def']
  have hts2 : fmtTs 2 = "  2.000000" := by
    simp only [fmtTs]
    rw [hf2]
    rfl
  have hf5 : Rat.floor ((5 : ℚ) * 1000000 + 1 / 2) = 5000000 := by
    norm_num [Rat.floor_def']
  have hts5 : fmtTs 5 = "  5.000000" := by
    simp only [fmtTs]
    rw [hf5]
    rfl
  refine ⟨rfl, ?_, ?_, ?_⟩
  · show [fmtTs 2 ++ ": "] = ["  2.000000: "]
    rw [hts2]
    rfl
  · simp [limit, hm]
  · have haud : (limit (some [((100 : ℚ), "a"), (99, "b"), (98, "c")]) "payload"
        3 900 true false false 5 100 6 7).audit = [fmtTs 5 ++ ": "] := by
      simp [limit, hm, Limiter.log]
    rw [haud, hts5]
    rfl

/-- C8 counterexample: invoking the tool without the required store-path
flag does not exit 2 — the `None + ".db"` `TypeError` raised inside
`Limiter.__init__` is caught by `main`'s `except TypeError`, which prints
the docstring and exits 0. -/
theorem claim8_exit_codes_counterexample :
    main (Except.ok ([], [])) none false false 0 0 0 0
        = (MainOutcome.exitCode 0, none) ∧
    (main (Except.ok ([], [])) none false false 0 0 0 0).1
        ≠ MainOutcome.exitCode 2 := by
  exact ⟨rfl, by decide⟩

/-- C8 amended: the exit code is 2 exactly on `getopt` parse errors (raised
as `Usage`); a successful parse with no store path set ends, via the caught
`TypeError`, at exit code 0 (help text), not 2; a non-integer `-m`/`-t`
value raises an uncaught `ValueError` rather than exiting 2; and with a
store path set, a normal verdict maps to exit code 0 when Admitted and 1
when Denied. -/
theorem claim8_exit_codes_amended (db0 : Option Store) (lof lwf : Bool)
    (tLock tNow tIns tKey : ℚ) (msg : String)
    (opts : List (String × String)) (args : List String) (a : Args) :
    main (Except.error msg) db0 lof lwf tLock tNow tIns tKey
        = (MainOutcome.exitCode 2, db0) ∧
    (procOpts initialArgs opts = OptsResult.parsed a → a.dbpath = none →
      main (Except.ok (opts, args)) db0 lof lwf tLock tNow tIns tKey
          = (MainOutcome.exitCode 0, db0)) ∧
    (procOpts initialArgs opts = OptsResult.valueError →
      main (Except.ok (opts, args)) db0 lof lwf tLock tNow tIns tKey
          = (MainOutcome.uncaught "ValueError", db0)) ∧
    (∀ p b, procOpts initialArgs opts = OptsResult.parsed a →
      a.dbpath = some p →
      (limit db0 (String.join args) a.mx (a.nseconds : ℚ) (strTruthy a.logfile)
          lof lwf tLock tNow tIns tKey).result = Except.ok b →
      (main (Except.ok (opts, args)) db0 lof lwf tLock tNow tIns tKey).1
          = MainOutcome.exitCode (if b then 0 else 1)) := by
  refine ⟨rfl, ?_, ?_, ?_⟩
  · intro hp hdb
    simp [main, hp, hdb]
  · intro hv
    simp [main, hv]
  · intro p b hp hdb hres
    cases b
    · simp [main, hp, hdb, hres]
    · simp [main, hp, hdb, hres]

/-- C8 amended, witnessed on an admitted run: `-f` set, fresh store, payload
"hi": the process exits 0. -/
theorem claim8_exit_codes_amended_witness :
    (main (Except.ok ([("-f", "/tmp/l")], ["hi"])) none false false 0 0 0 0).1
        = MainOutcome.exitCode 0 := by
  exact (claim8_exit_codes_amended none false false 0 0 0 0 "m"
      [("-f", "/tmp/l")] ["hi"]
      { dbpath := some "/tmp/l", mx := 3, nseconds := 900, logfile := none,
        quiet := false }).2.2.2 "/tmp/l" true (by decide) rfl (by decide)

end PyLimiter
